import Mathlib

/- Shallow embedding of the codecrafters HTTP server (src/main.rs, src/http.rs).
   Byte strings on the wire are modelled as lists of natural numbers (the byte
   values).  All string literals occurring in the source are ASCII, so their
   UTF-8 bytes coincide with their code points. -/

abbrev Bytes := List Nat

/-- Byte list of an ASCII string literal (code point = byte for ASCII). -/
def strBytes (s : String) : Bytes := s.data.map Char.toNat

/-- Errors a connection-handling task can end with.  `panicked` models a Rust
panic (`unwrap` on `None`, `expect` failure); the other constructors model the
`anyhow` errors propagated with `?`.  `diverges` marks the one loop in
`files_post` that never terminates when the stream ends before `Content-Length`
bytes arrive. -/
inductive HErr where
  | panicked (msg : String)
  | missingMethod
  | missingPath
  | unsupportedMethod
  | intParseErr
  | ioErr
  | diverges
deriving DecidableEq

/-- `HttpStatus` from src/http.rs. -/
inductive HttpStatus where
  | ok
  | created
  | badRequest
  | notFound
  | internalServerError
deriving DecidableEq

/-- The discriminant values of the Rust enum (`HttpStatus::Ok = 200`, ...),
written on the status line via `response.status() as u16`. -/
def HttpStatus.code : HttpStatus → Nat
  | .ok => 200
  | .created => 201
  | .badRequest => 400
  | .notFound => 404
  | .internalServerError => 500

/-- The derived `Debug` representation of `HttpStatus`, which is what
`RequestContext::send` actually writes for the reason phrase
(`format!("{:?}", response.status())` in src/main.rs line 149). -/
def HttpStatus.debugName : HttpStatus → String
  | .ok => "Ok"
  | .created => "Created"
  | .badRequest => "BadRequest"
  | .notFound => "NotFound"
  | .internalServerError => "InternalServerError"

/-- The `Into<&'static str> for HttpStatus` impl of src/http.rs lines 18-28.
It is never called by `send`; it differs from `debugName` only at `ok`. -/
def HttpStatus.intoStr : HttpStatus → String
  | .ok => "OK"
  | .created => "Created"
  | .badRequest => "BadRequest"
  | .notFound => "NotFound"
  | .internalServerError => "InternalServerError"

/-- `HttpMethod` from src/main.rs. -/
inductive HttpMethod where
  | get
  | post
deriving DecidableEq

/-- ASCII lower-casing of one byte, as in `u8::to_ascii_lowercase`. -/
def asciiLower (b : Nat) : Nat := if 65 ≤ b ∧ b ≤ 90 then b + 32 else b

/-- `str::eq_ignore_ascii_case`. -/
def eqIgnoreCase (a b : Bytes) : Bool := a.map asciiLower == b.map asciiLower

/-- `TryFrom<&str> for HttpMethod` (src/main.rs lines 50-62): GET and POST are
matched case-insensitively, anything else is an `anyhow` error (`bail!`). -/
def httpMethodTryFrom (v : Bytes) : Except HErr HttpMethod :=
  if eqIgnoreCase v (strBytes "GET") then .ok .get
  else if eqIgnoreCase v (strBytes "POST") then .ok .post
  else .error .unsupportedMethod

/-- Bytes trimmed by Rust `str::trim` / `trim_end` (ASCII whitespace subset of
`char::is_whitespace`: TAB, LF, VT, FF, CR, SPACE). -/
def isRustWS (b : Nat) : Bool := b == 9 || b == 10 || b == 11 || b == 12 || b == 13 || b == 32

/-- Bytes treated as separators by `split_ascii_whitespace`
(`u8::is_ascii_whitespace`: TAB, LF, FF, CR, SPACE). -/
def isAsciiWS (b : Nat) : Bool := b == 9 || b == 10 || b == 12 || b == 13 || b == 32

/-- `str::trim_end` on bytes. -/
def trimEndB (s : Bytes) : Bytes := (s.reverse.dropWhile isRustWS).reverse

/-- `str::trim` on bytes. -/
def trimB (s : Bytes) : Bytes := trimEndB (s.dropWhile isRustWS)

/-- One `read_line` on a buffered stream: consumes up to and including the
first LF, or the whole stream if no LF remains.  Returns (consumed, rest). -/
def readLineRaw (s : Bytes) : Bytes × Bytes :=
  match s.findIdx? (fun b => b == 10) with
  | some i => (s.take (i + 1), s.drop (i + 1))
  | none => (s, [])

/-- Accumulator loop of `split_ascii_whitespace`. -/
def splitWSAux : Bytes → Bytes → List Bytes
  | [], cur => if cur.isEmpty then [] else [cur.reverse]
  | b :: rest, cur =>
    if isAsciiWS b then
      if cur.isEmpty then splitWSAux rest [] else cur.reverse :: splitWSAux rest []
    else splitWSAux rest (b :: cur)

/-- `str::split_ascii_whitespace` collected to a vector. -/
def splitAsciiWS (s : Bytes) : List Bytes := splitWSAux s []

/-- Header mapping: `HashMap<String, String>` modelled as an association list;
lookup is case-sensitive on the raw key bytes, duplicate inserts overwrite. -/
abbrev HeaderMap := List (Bytes × Bytes)

/-- `HashMap::get`. -/
def hmGet (m : HeaderMap) (k : Bytes) : Option Bytes :=
  (m.find? (fun p => p.1 == k)).map Prod.snd

/-- `HashMap::insert` (last write wins). -/
def hmInsert (m : HeaderMap) (k v : Bytes) : HeaderMap :=
  if m.any (fun p => p.1 == k) then
    m.map (fun p => if p.1 == k then (k, v) else p)
  else
    m ++ [(k, v)]

/-- `read_headers` (src/main.rs lines 64-84), fuelled so that it reduces
definitionally.  Each iteration reads a line, trims its end, stops at an empty
line, otherwise does `splitn(2, ':')`: a line without a colon makes the second
`parts.next().unwrap()` panic, modelled as `HErr.panicked`.  The fuel
`s.length + 1` in `readHeaders` is always sufficient because every iteration
consumes at least one byte of a nonempty stream. -/
def readHeadersAux : Nat → Bytes → HeaderMap → Except HErr (HeaderMap × Bytes)
  | 0, s, m => .ok (m, s)
  | fuel + 1, s, m =>
    let (raw, rest) := readLineRaw s
    let line := trimEndB raw
    if line.isEmpty then .ok (m, rest)
    else
      match line.findIdx? (fun b => b == 58) with
      | none => .error (.panicked "Option::unwrap on None")
      | some i =>
        let k := trimB (line.take i)
        let v := trimB (line.drop (i + 1))
        readHeadersAux fuel rest (hmInsert m k v)

/-- `read_headers` applied to the remaining stream. -/
def readHeaders (s : Bytes) : Except HErr (HeaderMap × Bytes) :=
  readHeadersAux (s.length + 1) s []

/-- Filesystem model: map from full path bytes to file contents. -/
abbrev Fs := List (Bytes × Bytes)

/-- Filesystem lookup: `Path::exists` / `fs::metadata` / `File::open`. -/
def fsGet (fs : Fs) (p : Bytes) : Option Bytes :=
  (fs.find? (fun q => q.1 == p)).map Prod.snd

/-- `File::create` followed by writing `b`: create-or-truncate. -/
def fsInsert (fs : Fs) (p b : Bytes) : Fs :=
  if fs.any (fun q => q.1 == p) then
    fs.map (fun q => if q.1 == p then (p, b) else q)
  else
    fs ++ [(p, b)]

/-- The two `HttpContent` implementations of src/http.rs: `PlainTextContent`
(owns its text) and `FileContent` (owns only the path; every query hits the
filesystem). -/
inductive HttpContent where
  | plainText (text : Bytes)
  | file (path : Bytes)
deriving DecidableEq

/-- `content_type()`: constant per variant. -/
def HttpContent.contentType : HttpContent → String
  | .plainText _ => "text/plain"
  | .file _ => "application/octet-stream"

/-- `content_length()`: for text the byte length of the string; for a file the
size from `fs::metadata(..).expect("File doesn't exist?")`, which panics when
the metadata query fails (src/http.rs line 129). -/
def HttpContent.contentLength (c : HttpContent) (fs : Fs) : Except HErr Nat :=
  match c with
  | .plainText t => .ok t.length
  | .file p =>
    match fsGet fs p with
    | some b => .ok b.length
    | none => .error (.panicked "File doesn't exist?")

/-- `content()`: the readable byte stream. Text always succeeds (a cursor over
the owned bytes); a file is freshly opened and `File::open` failure is an
`anyhow` error propagated with `?` (src/http.rs line 133). -/
def HttpContent.contentStream (c : HttpContent) (fs : Fs) : Except HErr Bytes :=
  match c with
  | .plainText t => .ok t
  | .file p =>
    match fsGet fs p with
    | some b => .ok b
    | none => .error .ioErr

/-- `HttpResponse` from src/http.rs. -/
structure HttpResponse where
  status : HttpStatus
  statusMessage : Option Bytes
  headers : HeaderMap
  content : Option HttpContent
deriving DecidableEq

/-- `HttpResponse::new`: note the header mapping starts empty and no builder
method ever adds to it. -/
def HttpResponse.new (s : HttpStatus) : HttpResponse :=
  { status := s, statusMessage := none, headers := [], content := none }

/-- `HttpResponse::with_status_message`. -/
def HttpResponse.withStatusMessage (r : HttpResponse) (m : Bytes) : HttpResponse :=
  { r with statusMessage := some m }

/-- `HttpResponse::with_content`. -/
def HttpResponse.withContent (r : HttpResponse) (c : HttpContent) : HttpResponse :=
  { r with content := some c }

/-- Decimal printing per fuel (Rust `Display` for unsigned integers): the fuel
`n + 1` in `natToDec` always suffices since a number has at most `n + 1`
digits. -/
def natToDecAux : Nat → Nat → Bytes
  | 0, _ => []
  | fuel + 1, n =>
    if n < 10 then [48 + n] else natToDecAux fuel (n / 10) ++ [48 + n % 10]

/-- `format!("{}", n)` for an unsigned integer, as bytes. -/
def natToDec (n : Nat) : Bytes := natToDecAux (n + 1) n

/-- The CRLF line terminator. -/
def crlf : Bytes := strBytes "\r\n"

/-- Key bytes of the `Content-Type` header. -/
def ctKey : Bytes := strBytes "Content-Type"

/-- Key bytes of the `Content-Length` header. -/
def clKey : Bytes := strBytes "Content-Length"

/-- The status line written by `RequestContext::send` (src/main.rs 145-151):
`"HTTP/1.1 {code} "`, then the explicit status message if present, otherwise
the `Debug` form of the status, then CRLF. -/
def statusLine (r : HttpResponse) : Bytes :=
  strBytes "HTTP/1.1 " ++ natToDec r.status.code ++ strBytes " " ++
    (match r.statusMessage with
     | some m => m
     | none => strBytes r.status.debugName) ++ crlf

/-- One `"{key}: {value}\r\n"` header line. -/
def headerLine (kv : Bytes × Bytes) : Bytes := kv.1 ++ strBytes ": " ++ kv.2 ++ crlf

/-- The sequence of header lines `send` emits: the caller-supplied mapping
first, then, when content is present, `Content-Type` and `Content-Length`
computed from the content source (src/main.rs 153-159).  Querying the length
of a missing file panics, which surfaces here as the error. -/
def emittedHeaders (fs : Fs) (r : HttpResponse) : Except HErr HeaderMap :=
  match r.content with
  | none => .ok r.headers
  | some c =>
    match c.contentLength fs with
    | .ok len =>
      .ok (r.headers ++ [(ctKey, strBytes c.contentType), (clKey, natToDec len)])
    | .error e => .error e

/-- Full serialization of `RequestContext::send`: status line, header lines,
one blank CRLF, then the streamed body (`tokio::io::copy` from the content
reader), flushed once. -/
def sendResponse (fs : Fs) (r : HttpResponse) : Except HErr Bytes :=
  match emittedHeaders fs r with
  | .error e => .error e
  | .ok hs =>
    match r.content with
    | none => .ok (statusLine r ++ (hs.map headerLine).flatten ++ crlf)
    | some c =>
      match c.contentStream fs with
      | .error e => .error e
      | .ok body => .ok (statusLine r ++ (hs.map headerLine).flatten ++ crlf ++ body)

/-- The body bytes `send` streams for a response (empty when no content). -/
def responseBody (fs : Fs) (r : HttpResponse) : Except HErr Bytes :=
  match r.content with
  | none => .ok []
  | some c => c.contentStream fs

/-- Value of the `Content-Length` header line in the emitted header sequence,
if any. -/
def clHeaderValue (fs : Fs) (r : HttpResponse) : Option Bytes :=
  match emittedHeaders fs r with
  | .ok hs => hmGet hs clKey
  | .error _ => none

/-- Rust `str::parse::<usize>` on bytes: optional leading `+`, then one or
more ASCII digits; the value must fit in a 64-bit usize. -/
def parseUsize (s : Bytes) : Option Nat :=
  let digits := if s.head? = some 43 then s.tail else s
  if digits.isEmpty then none
  else if digits.all (fun b => 48 ≤ b && b ≤ 57) then
    let v := digits.foldl (fun a b => a * 10 + (b - 48)) 0
    if v < 2 ^ 64 then some v else none
  else none

/-- The body-reading loop of `files_post` (src/main.rs 274-283): repeatedly
read up to 8192 bytes, append them to the file, stop once the running total
reaches `Content-Length`.  If the stream is exhausted first, `read` returns 0
forever and the loop never terminates: that case is `none`.  Fuel
`stream.length + 1` always suffices because each recursive step consumes at
least one byte. -/
def readLoopAux : Nat → Bytes → Nat → Bytes → Option Bytes
  | 0, _, _, _ => none
  | fuel + 1, stream, clen, acc =>
    let chunk := stream.take 8192
    let acc2 := acc ++ chunk
    if clen ≤ acc2.length then some acc2
    else if stream.isEmpty then none
    else readLoopAux fuel (stream.drop 8192) clen acc2

/-- All bytes the upload loop writes into the destination file. -/
def readBody (stream : Bytes) (clen : Nat) : Option Bytes :=
  readLoopAux (stream.length + 1) stream clen []

/-- `PathBuf::from(dir).join(rem)`: an absolute remainder replaces the base,
otherwise the components are joined with a separator. -/
def pathJoin (dir rem : Bytes) : Bytes :=
  if (strBytes "/").isPrefixOf rem then rem
  else if dir.getLast? == some 47 then dir ++ rem
  else dir ++ strBytes "/" ++ rem

/-- The `index` handler: `GET /` gives 200 with no content. -/
def index : HttpResponse := HttpResponse.new .ok

/-- The `echo` handler (src/main.rs 218-222): the path remainder after the
literal `"/echo/"` prefix, as plain-text content. -/
def echo (path : Bytes) : HttpResponse :=
  (HttpResponse.new .ok).withContent (.plainText (path.drop (strBytes "/echo/").length))

/-- The `user_agent` handler (src/main.rs 224-234). -/
def userAgent (headers : HeaderMap) : HttpResponse :=
  match hmGet headers (strBytes "User-Agent") with
  | some agent => (HttpResponse.new .ok).withContent (.plainText agent)
  | none => HttpResponse.new .badRequest

/-- The `files` GET handler (src/main.rs 236-253): 500 when no base directory
is configured, 404 when the joined path does not exist, otherwise 200 with
`FileContent`. -/
def files (config : Option Bytes) (fs : Fs) (path : Bytes) : HttpResponse :=
  match config with
  | none => HttpResponse.new .internalServerError
  | some dir =>
    let fp := pathJoin dir (path.drop (strBytes "/files/").length)
    if (fsGet fs fp).isSome then (HttpResponse.new .ok).withContent (.file fp)
    else HttpResponse.new .notFound

/-- The `files_post` handler (src/main.rs 255-286): 500 when no base directory
is configured; 400 when `Content-Length` is absent; a propagated parse error
(`?`) when it does not parse as a usize; otherwise the loop copies the request
stream into a newly created file and the handler answers 201 with no body.  A
stream that ends early leaves the loop spinning forever (`HErr.diverges`; the
partially written file of that never-returning case is not modelled). -/
def filesPost (config : Option Bytes) (fs : Fs) (headers : HeaderMap)
    (path : Bytes) (stream : Bytes) : Except HErr (HttpResponse × Fs) :=
  match config with
  | none => .ok (HttpResponse.new .internalServerError, fs)
  | some dir =>
    let dest := pathJoin dir (path.drop (strBytes "/files/").length)
    match hmGet headers clKey with
    | none => .ok (HttpResponse.new .badRequest, fs)
    | some clBytes =>
      match parseUsize clBytes with
      | none => .error .intParseErr
      | some clen =>
        match readBody stream clen with
        | none => .error .diverges
        | some written => .ok (HttpResponse.new .created, fsInsert fs dest written)

/-- `process_request` (src/main.rs 173-212): the dispatch on method and path.
The `_ => BadRequest` arm of the source is commented out and unreachable, so
only GET and POST rows exist. -/
def processRequest (config : Option Bytes) (fs : Fs) (method : HttpMethod)
    (path : Bytes) (headers : HeaderMap) (stream : Bytes) :
    Except HErr (HttpResponse × Fs) :=
  match method with
  | .get =>
    if path = strBytes "/" then .ok (index, fs)
    else if path = strBytes "/user-agent" then .ok (userAgent headers, fs)
    else if (strBytes "/echo/").isPrefixOf path then .ok (echo path, fs)
    else if (strBytes "/files/").isPrefixOf path then .ok (files config fs path, fs)
    else .ok (HttpResponse.new .notFound, fs)
  | .post =>
    if (strBytes "/files/").isPrefixOf path then filesPost config fs headers path stream
    else .ok (HttpResponse.new .notFound, fs)

/-- `handle_connection_inner` (src/main.rs 99-131) followed by
`process_request` and `send`: reads the request line, reads the header block,
splits the request line on ASCII whitespace into method / path / optional
version (the version defaults to `HTTP/1.1` and is never consulted),
dispatches, and serializes the resulting response.  The result is the bytes
written to the socket together with the final filesystem; any error aborts the
connection with nothing (further) sent. -/
def handleConnectionInner (config : Option Bytes) (fs : Fs) (input : Bytes) :
    Except HErr (Bytes × Fs) :=
  let (rawLine, rest1) := readLineRaw input
  let requestLine := trimB rawLine
  match readHeaders rest1 with
  | .error e => .error e
  | .ok (headers, rest2) =>
    let parts := splitAsciiWS requestLine
    match parts.get? 0 with
    | none => .error .missingMethod
    | some methodTok =>
      match httpMethodTryFrom methodTok with
      | .error e => .error e
      | .ok method =>
        match parts.get? 1 with
        | none => .error .missingPath
        | some path =>
          match processRequest config fs method path headers rest2 with
          | .error e => .error e
          | .ok (response, fs2) =>
            match sendResponse fs2 response with
            | .error e => .error e
            | .ok out => .ok (out, fs2)

/-- Number of header lines with a given key in an emitted header sequence. -/
def countKey (hs : HeaderMap) (k : Bytes) : Nat :=
  (hs.filter (fun p => p.1 == k)).length

/-- Whether a byte sequence contains a CR immediately followed by LF (used to
state the side condition of the echo property). -/
def hasCRLF : Bytes → Bool
  | 13 :: 10 :: _ => true
  | _ :: rest => hasCRLF rest
  | [] => false

/- ------------------------------------------------------------------ -/
/- Helper lemmas                                                       -/
/- ------------------------------------------------------------------ -/

theorem isPrefixOf_append_self (p t : Bytes) : p.isPrefixOf (p ++ t) = true :=
  List.isPrefixOf_iff_prefix.mpr (List.prefix_append p t)

theorem take_of_isPrefixOf {p l : Bytes} (h : p.isPrefixOf l = true) :
    l.take p.length = p :=
  (List.prefix_iff_eq_take.mp (List.isPrefixOf_iff_prefix.mp h)).symm

theorem append_drop_of_isPrefixOf {p l : Bytes} (h : p.isPrefixOf l = true) :
    p ++ l.drop p.length = l := by
  obtain ⟨t, rfl⟩ := List.isPrefixOf_iff_prefix.mp h
  rw [List.drop_left]

theorem not_isPrefixOf_of_take {p q l : Bytes} (hpl : p.isPrefixOf l = true)
    (hq : q.length ≤ p.length) (hne : p.take q.length ≠ q) :
    q.isPrefixOf l = false := by
  cases hqb : q.isPrefixOf l with
  | false => rfl
  | true =>
    exfalso
    apply hne
    calc p.take q.length
        = (l.take p.length).take q.length := by rw [take_of_isPrefixOf hpl]
      _ = l.take q.length := by rw [List.take_take, Nat.min_eq_left hq]
      _ = q := take_of_isPrefixOf hqb

theorem drop_append_of_isPrefixOf {p l : Bytes} (h : p.isPrefixOf l = true) :
    l = p ++ l.drop p.length := (append_drop_of_isPrefixOf h).symm

theorem processRequest_get_echo (config : Option Bytes) (fs : Fs)
    (headers : HeaderMap) (stream : Bytes) {path : Bytes}
    (h : (strBytes "/echo/").isPrefixOf path = true) :
    processRequest config fs .get path headers stream = .ok (echo path, fs) := by
  have h1 : path ≠ strBytes "/" := by
    intro he; rw [he] at h; exact absurd h (by decide)
  have h2 : path ≠ strBytes "/user-agent" := by
    intro he; rw [he] at h; exact absurd h (by decide)
  simp only [processRequest, if_neg h1, if_neg h2, h, if_true]

theorem processRequest_get_files (config : Option Bytes) (fs : Fs)
    (headers : HeaderMap) (stream : Bytes) {path : Bytes}
    (h : (strBytes "/files/").isPrefixOf path = true) :
    processRequest config fs .get path headers stream = .ok (files config fs path, fs) := by
  have h1 : path ≠ strBytes "/" := by
    intro he; rw [he] at h; exact absurd h (by decide)
  have h2 : path ≠ strBytes "/user-agent" := by
    intro he; rw [he] at h; exact absurd h (by decide)
  have h3 : (strBytes "/echo/").isPrefixOf path = false :=
    not_isPrefixOf_of_take h (by decide) (by decide)
  simp only [processRequest, if_neg h1, if_neg h2, h3, h, if_true, Bool.false_eq_true, if_false]

theorem processRequest_post_files (config : Option Bytes) (fs : Fs)
    (headers : HeaderMap) (stream : Bytes) {path : Bytes}
    (h : (strBytes "/files/").isPrefixOf path = true) :
    processRequest config fs .post path headers stream =
      filesPost config fs headers path stream := by
  simp only [processRequest, h, if_true]

theorem natToDecAux_digits {fuel n : Nat} (h : n < fuel) :
    ∀ b ∈ natToDecAux fuel n, 48 ≤ b ∧ b ≤ 57 := by
  induction fuel generalizing n with
  | zero => omega
  | succ fuel ih =>
    intro b hb
    rw [natToDecAux] at hb
    by_cases h10 : n < 10
    · rw [if_pos h10] at hb
      simp only [List.mem_singleton] at hb
      omega
    · rw [if_neg h10] at hb
      rw [List.mem_append] at hb
      rcases hb with hb | hb
      · have hd : n / 10 < n := Nat.div_lt_self (by omega) (by omega)
        exact ih (by omega) b hb
      · simp only [List.mem_singleton] at hb
        have hm : n % 10 < 10 := Nat.mod_lt n (by omega)
        omega

theorem natToDecAux_ne_nil {fuel n : Nat} (h : n < fuel) : natToDecAux fuel n ≠ [] := by
  cases fuel with
  | zero => omega
  | succ fuel =>
    rw [natToDecAux]
    by_cases h10 : n < 10
    · rw [if_pos h10]; simp
    · rw [if_neg h10]; simp

theorem natToDecAux_foldl {fuel n : Nat} (h : n < fuel) (a : Nat) :
    (natToDecAux fuel n).foldl (fun acc b => acc * 10 + (b - 48)) a =
      a * 10 ^ (natToDecAux fuel n).length + n := by
  induction fuel generalizing n a with
  | zero => omega
  | succ fuel ih =>
    rw [natToDecAux]
    by_cases h10 : n < 10
    · rw [if_pos h10]
      simp only [List.foldl_cons, List.foldl_nil, List.length_singleton, pow_one]
      omega
    · rw [if_neg h10]
      have hd : n / 10 < n := Nat.div_lt_self (by omega) (by omega)
      rw [List.foldl_append, List.length_append, ih (by omega) a]
      simp only [List.foldl_cons, List.foldl_nil, List.length_singleton, pow_succ]
      have hsub : 48 + n % 10 - 48 = n % 10 := by omega
      rw [hsub, Nat.add_mul, ← Nat.mul_assoc]
      generalize a * 10 ^ (natToDecAux fuel (n / 10)).length * 10 = K
      omega

theorem parseUsize_of_digits {s : Bytes} (hne : s ≠ [])
    (hdig : ∀ b ∈ s, 48 ≤ b ∧ b ≤ 57)
    (hv : s.foldl (fun a b => a * 10 + (b - 48)) 0 < 2 ^ 64) :
    parseUsize s = some (s.foldl (fun a b => a * 10 + (b - 48)) 0) := by
  have hhead : s.head? ≠ some 43 := by
    cases s with
    | nil => simp
    | cons b bs =>
      have hb := hdig b (List.mem_cons_self b bs)
      simp only [List.head?_cons, ne_eq, Option.some.injEq]
      omega
  have hall : s.all (fun b => 48 ≤ b && b ≤ 57) = true := by
    rw [List.all_eq_true]
    intro b hb
    have := hdig b hb
    simp only [Bool.and_eq_true, decide_eq_true_eq]
    omega
  simp only [parseUsize, if_neg hhead]
  rw [if_neg (by simpa [List.isEmpty_iff] using hne), if_pos hall, if_pos hv]

theorem parseUsize_natToDec {n : Nat} (h : n < 2 ^ 64) :
    parseUsize (natToDec n) = some n := by
  have hfold : (natToDec n).foldl (fun a b => a * 10 + (b - 48)) 0 = n := by
    have := natToDecAux_foldl (Nat.lt_succ_self n) 0
    simpa [natToDec] using this
  have := parseUsize_of_digits (s := natToDec n)
    (natToDecAux_ne_nil (Nat.lt_succ_self n))
    (natToDecAux_digits (Nat.lt_succ_self n))
    (by rw [hfold]; exact h)
  rw [this, hfold]

theorem readLoopAux_exact :
    ∀ (fuel : Nat) (stream acc : Bytes) (clen : Nat),
      stream.length < fuel → acc.length + stream.length = clen →
      readLoopAux fuel stream clen acc = some (acc ++ stream) := by
  intro fuel
  induction fuel with
  | zero => intro stream acc clen h _; omega
  | succ fuel ih =>
    intro stream acc clen h hlen
    by_cases hle : stream.length ≤ 8192
    · have hchunk : stream.take 8192 = stream := List.take_of_length_le hle
      simp only [readLoopAux, hchunk]
      rw [if_pos (by rw [List.length_append]; omega)]
    · have hchunklen : (stream.take 8192).length = 8192 := by
        rw [List.length_take]; omega
      have hcond : ¬ clen ≤ (acc ++ stream.take 8192).length := by
        rw [List.length_append, hchunklen]; omega
      have hne : stream.isEmpty = false := by
        rw [List.isEmpty_eq_false]
        intro he; rw [he] at hle; simp at hle
      simp only [readLoopAux, if_neg hcond, hne, Bool.false_eq_true, if_false]
      rw [ih (stream.drop 8192) (acc ++ stream.take 8192) clen
          (by rw [List.length_drop]; omega)
          (by rw [List.length_append, List.length_drop, hchunklen]; omega)]
      rw [List.append_assoc, List.take_append_drop]

theorem readBody_exact {stream : Bytes} {clen : Nat} (h : stream.length = clen) :
    readBody stream clen = some stream := by
  unfold readBody
  rw [readLoopAux_exact (stream.length + 1) stream [] clen (by omega) (by simpa using h)]
  simp

theorem hmGet_append_right {m1 m2 : HeaderMap} {k : Bytes}
    (h : ∀ p ∈ m1, ¬ p.1 = k) : hmGet (m1 ++ m2) k = hmGet m2 k := by
  unfold hmGet
  rw [List.find?_append]
  have hnone : m1.find? (fun p => p.1 == k) = none := by
    rw [List.find?_eq_none]
    intro p hp
    simpa using h p hp
  rw [hnone, Option.none_or]

theorem countKey_of_filter_nil {m : HeaderMap} {k : Bytes}
    (h : countKey m k = 0) : ∀ p ∈ m, ¬ p.1 = k := by
  intro p hp
  unfold countKey at h
  rw [List.length_eq_zero, List.filter_eq_nil_iff] at h
  simpa using h p hp

theorem countKey_append (m1 m2 : HeaderMap) (k : Bytes) :
    countKey (m1 ++ m2) k = countKey m1 k + countKey m2 k := by
  unfold countKey
  rw [List.filter_append, List.length_append]

theorem fsGet_insert (fs : Fs) (p b : Bytes) : fsGet (fsInsert fs p b) p = some b := by
  unfold fsInsert
  by_cases hmem : fs.any (fun q => q.1 == p) = true
  · rw [if_pos hmem]
    unfold fsGet
    induction fs with
    | nil => simp at hmem
    | cons x xs ihx =>
      by_cases hx : x.1 = p
      · simp [List.find?, hx]
      · have hxb : (x.1 == p) = false := by simpa using hx
        simp only [List.map_cons, if_neg (by simpa using hx)]
        rw [List.find?_cons_of_neg _ (by simp [hxb])]
        have hmem2 : xs.any (fun q => q.1 == p) = true := by
          rcases List.any_eq_true.mp hmem with ⟨q, hq, hqp⟩
          rcases List.mem_cons.mp hq with hq1 | hq2
          · rw [hq1] at hqp; simp [hxb] at hqp
          · exact List.any_eq_true.mpr ⟨q, hq2, hqp⟩
        exact ihx hmem2
  · rw [if_neg hmem]
    unfold fsGet
    rw [List.find?_append]
    have hnone : fs.find? (fun q => q.1 == p) = none := by
      rw [List.find?_eq_none]
      intro q hq hqq
      exact hmem (List.any_eq_true.mpr ⟨q, hq, hqq⟩)
    rw [hnone, Option.none_or]
    simp [List.find?]


theorem statusLine_eq (r : HttpResponse) :
    statusLine r = strBytes "HTTP/1.1 " ++ natToDec r.status.code ++ strBytes " " ++
      r.statusMessage.getD (strBytes r.status.debugName) ++ crlf := by
  unfold statusLine
  cases r.statusMessage <;> rfl

theorem sendResponse_eq_content {fs : Fs} {r : HttpResponse} {c : HttpContent}
    {hs : HeaderMap} {body : Bytes}
    (hc : r.content = some c) (hh : emittedHeaders fs r = .ok hs)
    (hcs : c.contentStream fs = .ok body) :
    sendResponse fs r = .ok (statusLine r ++ (hs.map headerLine).flatten ++ crlf ++ body) := by
  simp only [sendResponse, hh, hc, hcs]

theorem sendResponse_eq_nocontent {fs : Fs} {r : HttpResponse}
    (hc : r.content = none) :
    sendResponse fs r = .ok (statusLine r ++ (r.headers.map headerLine).flatten ++ crlf) := by
  simp only [sendResponse, emittedHeaders, hc]

theorem sendResponse_eq_headerr {fs : Fs} {r : HttpResponse} {e : HErr}
    (hh : emittedHeaders fs r = .error e) : sendResponse fs r = .error e := by
  simp only [sendResponse, hh]

theorem sendResponse_eq_streamerr {fs : Fs} {r : HttpResponse} {c : HttpContent}
    {hs : HeaderMap} {e : HErr} (hc : r.content = some c)
    (hh : emittedHeaders fs r = .ok hs) (hcs : c.contentStream fs = .error e) :
    sendResponse fs r = .error e := by
  simp only [sendResponse, hh, hc, hcs]

theorem sendResponse_statusLine_isPrefix {fs : Fs} {r : HttpResponse} {out : Bytes}
    (h : sendResponse fs r = .ok out) : statusLine r <+: out := by
  cases hc : r.content with
  | none =>
    rw [sendResponse_eq_nocontent hc] at h
    cases h
    exact (List.prefix_append _ _).trans (List.prefix_append _ _)
  | some c =>
    cases hh : emittedHeaders fs r with
    | error e => rw [sendResponse_eq_headerr hh] at h; cases h
    | ok hs =>
      cases hcs : HttpContent.contentStream c fs with
      | error e => rw [sendResponse_eq_streamerr hc hh hcs] at h; cases h
      | ok body =>
        rw [sendResponse_eq_content hc hh hcs] at h
        cases h
        exact ((List.prefix_append _ _).trans (List.prefix_append _ _)).trans
          (List.prefix_append _ _)

theorem hmGet_pair_cl (tv lv : Bytes) :
    hmGet [(ctKey, tv), (clKey, lv)] clKey = some lv := by
  unfold hmGet
  rw [@List.find?_cons_of_neg _ (fun p => p.1 == clKey) (ctKey, tv) [(clKey, lv)]
        (show ¬ (ctKey == clKey) = true by decide),
      @List.find?_cons_of_pos _ (fun p => p.1 == clKey) (clKey, lv) []
        (show (clKey == clKey) = true by decide)]
  rfl

theorem hmGet_pair_ct (tv lv : Bytes) :
    hmGet [(ctKey, tv), (clKey, lv)] ctKey = some tv := by
  unfold hmGet
  rw [@List.find?_cons_of_pos _ (fun p => p.1 == ctKey) (ctKey, tv) [(clKey, lv)]
        (show (ctKey == ctKey) = true by decide)]
  rfl

theorem countKey_pair_ct (tv lv : Bytes) :
    countKey [(ctKey, tv), (clKey, lv)] ctKey = 1 := by
  unfold countKey
  rw [@List.filter_cons_of_pos _ (fun p => p.1 == ctKey) (ctKey, tv) [(clKey, lv)]
        (show (ctKey == ctKey) = true by decide),
      @List.filter_cons_of_neg _ (fun p => p.1 == ctKey) (clKey, lv) []
        (show ¬ (clKey == ctKey) = true by decide)]
  rfl

theorem countKey_pair_cl (tv lv : Bytes) :
    countKey [(ctKey, tv), (clKey, lv)] clKey = 1 := by
  unfold countKey
  rw [@List.filter_cons_of_neg _ (fun p => p.1 == clKey) (ctKey, tv) [(clKey, lv)]
        (show ¬ (ctKey == clKey) = true by decide),
      @List.filter_cons_of_pos _ (fun p => p.1 == clKey) (clKey, lv) []
        (show (clKey == clKey) = true by decide)]
  rfl

theorem emittedHeaders_eq_content {fs : Fs} {r : HttpResponse} {c : HttpContent}
    {n : Nat} (hc : r.content = some c) (hn : c.contentLength fs = .ok n) :
    emittedHeaders fs r =
      .ok (r.headers ++ [(ctKey, strBytes c.contentType), (clKey, natToDec n)]) := by
  simp only [emittedHeaders, hc, hn]

/- ------------------------------------------------------------------ -/
/- Claim theorems                                                      -/
/- ------------------------------------------------------------------ -/

/-- Claim C1: for every request `GET /echo/<X>` with X free of CRLF, the
router reaches the `echo` handler, the response has status 200 (`Ok`), its
streamed body is byte-for-byte X (the raw path remainder after the literal
`/echo/` prefix, no decoding), and the emitted `Content-Length` header value
is the decimal byte length of X. -/
theorem C1_echo_exact (config : Option Bytes) (fs : Fs) (headers : HeaderMap)
    (stream X : Bytes) (hX : hasCRLF X = false) :
    processRequest config fs .get (strBytes "/echo/" ++ X) headers stream =
      .ok (echo (strBytes "/echo/" ++ X), fs) ∧
    (echo (strBytes "/echo/" ++ X)).status = .ok ∧
    responseBody fs (echo (strBytes "/echo/" ++ X)) = .ok X ∧
    clHeaderValue fs (echo (strBytes "/echo/" ++ X)) = some (natToDec X.length) := by
  have hdrop : (strBytes "/echo/" ++ X).drop (strBytes "/echo/").length = X :=
    List.drop_left _ _
  refine ⟨processRequest_get_echo _ _ _ _ (isPrefixOf_append_self _ _), rfl, ?_, ?_⟩
  · simp only [echo, responseBody, HttpResponse.withContent, HttpResponse.new,
      HttpContent.contentStream, hdrop]
  · have hh : emittedHeaders fs (echo (strBytes "/echo/" ++ X)) =
        .ok ([] ++ [(ctKey, strBytes "text/plain"), (clKey, natToDec X.length)]) := by
      simp only [emittedHeaders, echo, HttpResponse.withContent, HttpResponse.new,
        HttpContent.contentLength, HttpContent.contentType, hdrop]
    simp only [clHeaderValue, hh, List.nil_append, hmGet_pair_cl]

/-- Witness for C1 at X = `abc`. -/
theorem C1_echo_exact_witness :
    processRequest none [] .get (strBytes "/echo/abc") [] [] =
      .ok (echo (strBytes "/echo/abc"), []) ∧
    (echo (strBytes "/echo/abc")).status = .ok ∧
    responseBody [] (echo (strBytes "/echo/abc")) = .ok (strBytes "abc") ∧
    clHeaderValue [] (echo (strBytes "/echo/abc")) = some (natToDec 3) :=
  C1_echo_exact none [] [] [] (strBytes "abc") (by decide)

/-- Claim C2 (counterexample): the claimed status line `HTTP/1.1 200 OK` is
refuted at the concrete request `GET /echo/abc HTTP/1.1` — the code writes
the derived Debug form `Ok` of the status, so the serialized response starts
`HTTP/1.1 200 Ok` and the claimed prefix check is false. -/
theorem C2_reason_counterexample :
    handleConnectionInner none [] (strBytes "GET /echo/abc HTTP/1.1\r\n\r\n") =
      .ok (strBytes "HTTP/1.1 200 Ok\r\nContent-Type: text/plain\r\nContent-Length: 3\r\n\r\nabc",
           []) ∧
    (strBytes "HTTP/1.1 200 OK\r\n").isPrefixOf
      (strBytes "HTTP/1.1 200 Ok\r\nContent-Type: text/plain\r\nContent-Length: 3\r\n\r\nabc")
      = false :=
  ⟨rfl, rfl⟩

/-- Claim C2 (amended): every serialized response begins with the status line
`HTTP/1.1 <code> <reason>` + CRLF, where reason is the explicit
status-message override when present and otherwise the derived Debug name of
the status (`Ok`, `Created`, `BadRequest`, `NotFound`,
`InternalServerError`) — not the canonical reason phrase; in particular the
response to `GET /echo/abc` begins `HTTP/1.1 200 Ok`. -/
theorem C2_reason_amended (fs : Fs) (r : HttpResponse) (out : Bytes)
    (h : sendResponse fs r = .ok out) :
    (strBytes "HTTP/1.1 " ++ natToDec r.status.code ++ strBytes " " ++
      r.statusMessage.getD (strBytes r.status.debugName) ++ crlf) <+: out := by
  rw [← statusLine_eq]
  exact sendResponse_statusLine_isPrefix h

/-- Witness for C2 (amended) at the response of `GET /`. -/
theorem C2_reason_amended_witness :
    (strBytes "HTTP/1.1 200 Ok\r\n") <+: strBytes "HTTP/1.1 200 Ok\r\n\r\n" :=
  C2_reason_amended [] (HttpResponse.new .ok) (strBytes "HTTP/1.1 200 Ok\r\n\r\n") rfl

/-- Claim C3: for every response the writer serializes whose caller-supplied
header mapping does not itself contain `Content-Type`/`Content-Length` (the
builder never adds any header, so this holds for every response the program
builds): if content is present the emitted header sequence contains exactly
one `Content-Type` and one `Content-Length` line, valued from the content
source's declared type and length (not from the mapping); if content is
absent neither appears and the body is empty; in both cases the serialized
bytes are the status line and header lines followed by exactly one blank
CRLF and then the body. -/
theorem C3_writer_invariant (fs : Fs) (r : HttpResponse)
    (hct : countKey r.headers ctKey = 0) (hcl : countKey r.headers clKey = 0)
    (out : Bytes) (h : sendResponse fs r = .ok out) :
    (∀ c, r.content = some c → ∀ n, HttpContent.contentLength c fs = .ok n →
      emittedHeaders fs r =
        .ok (r.headers ++ [(ctKey, strBytes c.contentType), (clKey, natToDec n)]) ∧
      countKey (r.headers ++ [(ctKey, strBytes c.contentType), (clKey, natToDec n)]) ctKey = 1 ∧
      countKey (r.headers ++ [(ctKey, strBytes c.contentType), (clKey, natToDec n)]) clKey = 1 ∧
      hmGet (r.headers ++ [(ctKey, strBytes c.contentType), (clKey, natToDec n)]) ctKey =
        some (strBytes c.contentType) ∧
      hmGet (r.headers ++ [(ctKey, strBytes c.contentType), (clKey, natToDec n)]) clKey =
        some (natToDec n) ∧
      ∀ body, HttpContent.contentStream c fs = .ok body →
        out = statusLine r ++
          ((r.headers ++ [(ctKey, strBytes c.contentType), (clKey, natToDec n)]).map
            headerLine).flatten ++ crlf ++ body) ∧
    (r.content = none →
      emittedHeaders fs r = .ok r.headers ∧
      responseBody fs r = .ok [] ∧
      out = statusLine r ++ (r.headers.map headerLine).flatten ++ crlf) := by
  constructor
  · intro c hc n hn
    have hh := emittedHeaders_eq_content hc hn
    refine ⟨hh, ?_, ?_, ?_, ?_, ?_⟩
    · rw [countKey_append, hct, countKey_pair_ct]
    · rw [countKey_append, hcl, countKey_pair_cl]
    · rw [hmGet_append_right (countKey_of_filter_nil hct), hmGet_pair_ct]
    · rw [hmGet_append_right (countKey_of_filter_nil hcl), hmGet_pair_cl]
    · intro body hbs
      rw [sendResponse_eq_content hc hh hbs] at h
      exact (Except.ok.inj h).symm
  · intro hc
    refine ⟨by simp only [emittedHeaders, hc], by simp only [responseBody, hc], ?_⟩
    rw [sendResponse_eq_nocontent hc] at h
    exact (Except.ok.inj h).symm

/-- Witness for C3 at the response to `GET /echo/hi` (content present) —
closed facts extracted by instantiating the invariant. -/
theorem C3_writer_invariant_witness :
    countKey [(ctKey, strBytes "text/plain"), (clKey, natToDec 2)] ctKey = 1 ∧
    countKey [(ctKey, strBytes "text/plain"), (clKey, natToDec 2)] clKey = 1 ∧
    hmGet [(ctKey, strBytes "text/plain"), (clKey, natToDec 2)] clKey = some (natToDec 2) ∧
    sendResponse [] ((HttpResponse.new .ok).withContent (.plainText (strBytes "hi"))) =
      .ok (strBytes "HTTP/1.1 200 Ok\r\nContent-Type: text/plain\r\nContent-Length: 2\r\n\r\nhi") := by
  have h := C3_writer_invariant [] ((HttpResponse.new .ok).withContent (.plainText (strBytes "hi")))
    rfl rfl
    (strBytes "HTTP/1.1 200 Ok\r\nContent-Type: text/plain\r\nContent-Length: 2\r\n\r\nhi") rfl
  have h2 := h.1 (.plainText (strBytes "hi")) rfl 2 rfl
  exact ⟨h2.2.1, h2.2.2.1, h2.2.2.2.2.1, rfl⟩

/-- Claim C4: uploading N bytes B via `POST /files/<name>` with header
`Content-Length: N` and exactly N body bytes answers 201 and stores B at the
joined destination path; a subsequent `GET /files/<name>` dispatches to the
`files` handler, answers 200 with `FileContent`, streams a body byte-identical
to B, and emits `Content-Length: N`.  (N is bounded by the 64-bit usize range,
as it must be for `parse::<usize>` to succeed.) -/
theorem C4_files_roundtrip (dir : Bytes) (fs : Fs) (name B stream2 : Bytes)
    (hdrs hdrs2 : HeaderMap) (N : Nat)
    (hN : B.length = N) (hbound : N < 2 ^ 64)
    (hcl : hmGet hdrs clKey = some (natToDec N)) :
    filesPost (some dir) fs hdrs (strBytes "/files/" ++ name) B =
      .ok (HttpResponse.new .created, fsInsert fs (pathJoin dir name) B) ∧
    processRequest (some dir) (fsInsert fs (pathJoin dir name) B) .get
        (strBytes "/files/" ++ name) hdrs2 stream2 =
      .ok (files (some dir) (fsInsert fs (pathJoin dir name) B)
            (strBytes "/files/" ++ name),
           fsInsert fs (pathJoin dir name) B) ∧
    files (some dir) (fsInsert fs (pathJoin dir name) B) (strBytes "/files/" ++ name) =
      (HttpResponse.new .ok).withContent (.file (pathJoin dir name)) ∧
    ((HttpResponse.new .ok).withContent (.file (pathJoin dir name))).status = .ok ∧
    responseBody (fsInsert fs (pathJoin dir name) B)
        ((HttpResponse.new .ok).withContent (.file (pathJoin dir name))) = .ok B ∧
    clHeaderValue (fsInsert fs (pathJoin dir name) B)
        ((HttpResponse.new .ok).withContent (.file (pathJoin dir name))) =
      some (natToDec N) := by
  have hdrop : (strBytes "/files/" ++ name).drop (strBytes "/files/").length = name :=
    List.drop_left _ _
  have hfsget : fsGet (fsInsert fs (pathJoin dir name) B) (pathJoin dir name) = some B :=
    fsGet_insert fs (pathJoin dir name) B
  refine ⟨?_, processRequest_get_files _ _ _ _ (isPrefixOf_append_self _ _), ?_, rfl, ?_, ?_⟩
  · simp only [filesPost, hdrop, hcl, parseUsize_natToDec hbound, readBody_exact hN]
  · simp only [files, hdrop, hfsget, Option.isSome_some, if_true]
  · simp only [responseBody, HttpResponse.withContent, HttpResponse.new,
      HttpContent.contentStream, hfsget]
  · have hh : emittedHeaders (fsInsert fs (pathJoin dir name) B)
        ((HttpResponse.new .ok).withContent (.file (pathJoin dir name))) =
        .ok ([] ++ [(ctKey, strBytes "application/octet-stream"), (clKey, natToDec N)]) := by
      simp only [emittedHeaders, HttpResponse.withContent, HttpResponse.new,
        HttpContent.contentLength, HttpContent.contentType, hfsget, hN]
    simp only [clHeaderValue, hh, List.nil_append, hmGet_pair_cl]

/-- Witness for C4: upload `hi` (N = 2) to `/files/f` with base directory
`d`, then fetch it back. -/
theorem C4_files_roundtrip_witness :
    filesPost (some (strBytes "d")) [] [(clKey, natToDec 2)] (strBytes "/files/" ++ strBytes "f")
        (strBytes "hi") =
      .ok (HttpResponse.new .created,
           fsInsert [] (pathJoin (strBytes "d") (strBytes "f")) (strBytes "hi")) ∧
    processRequest (some (strBytes "d"))
        (fsInsert [] (pathJoin (strBytes "d") (strBytes "f")) (strBytes "hi")) .get
        (strBytes "/files/" ++ strBytes "f") [] [] =
      .ok (files (some (strBytes "d"))
            (fsInsert [] (pathJoin (strBytes "d") (strBytes "f")) (strBytes "hi"))
            (strBytes "/files/" ++ strBytes "f"),
           fsInsert [] (pathJoin (strBytes "d") (strBytes "f")) (strBytes "hi")) ∧
    files (some (strBytes "d"))
        (fsInsert [] (pathJoin (strBytes "d") (strBytes "f")) (strBytes "hi"))
        (strBytes "/files/" ++ strBytes "f") =
      (HttpResponse.new .ok).withContent (.file (pathJoin (strBytes "d") (strBytes "f"))) ∧
    ((HttpResponse.new .ok).withContent (.file (pathJoin (strBytes "d") (strBytes "f")))).status =
      .ok ∧
    responseBody (fsInsert [] (pathJoin (strBytes "d") (strBytes "f")) (strBytes "hi"))
        ((HttpResponse.new .ok).withContent (.file (pathJoin (strBytes "d") (strBytes "f")))) =
      .ok (strBytes "hi") ∧
    clHeaderValue (fsInsert [] (pathJoin (strBytes "d") (strBytes "f")) (strBytes "hi"))
        ((HttpResponse.new .ok).withContent (.file (pathJoin (strBytes "d") (strBytes "f")))) =
      some (natToDec 2) :=
  C4_files_roundtrip (strBytes "d") [] (strBytes "f") (strBytes "hi") [] [(clKey, natToDec 2)]
    [] 2 rfl (by decide) rfl

/-- Claim C5 (counterexample): the request `PUT /x HTTP/1.1` does not get a
400-class response — the handler aborts with `UnsupportedMethod` before
dispatch (the `_ => BadRequest` arm is commented out in the source), so the
connection is closed with no response bytes written at all. -/
theorem C5_method_counterexample :
    handleConnectionInner none [] (strBytes "PUT /x HTTP/1.1\r\n\r\n") =
      .error HErr.unsupportedMethod :=
  rfl

/-- Claim C5 (amended): for every request whose method token is neither GET
nor POST case-insensitively, `TryFrom` fails with `UnsupportedMethod` and the
connection handler returns that error: no response (400-class or otherwise)
is produced, the connection is simply closed; the task itself does not crash
(the error is an ordinary return value, logged by `handle_connection`). -/
theorem C5_method_amended (config : Option Bytes) (fs : Fs) (input t : Bytes)
    (hm : HeaderMap) (rest : Bytes)
    (hhdr : readHeaders (readLineRaw input).2 = .ok (hm, rest))
    (htok : (splitAsciiWS (trimB (readLineRaw input).1)).get? 0 = some t)
    (hget : eqIgnoreCase t (strBytes "GET") = false)
    (hpost : eqIgnoreCase t (strBytes "POST") = false) :
    httpMethodTryFrom t = .error .unsupportedMethod ∧
    handleConnectionInner config fs input = .error HErr.unsupportedMethod := by
  have htf : httpMethodTryFrom t = .error .unsupportedMethod := by
    simp only [httpMethodTryFrom, hget, hpost, Bool.false_eq_true, if_false]
  refine ⟨htf, ?_⟩
  simp only [handleConnectionInner, hhdr, htok, htf]

/-- Witness for C5 (amended) at the `PUT /x` request. -/
theorem C5_method_amended_witness :
    httpMethodTryFrom (strBytes "PUT") = .error .unsupportedMethod ∧
    handleConnectionInner none [] (strBytes "PUT /x HTTP/1.1\r\n\r\n") =
      .error HErr.unsupportedMethod :=
  C5_method_amended none [] (strBytes "PUT /x HTTP/1.1\r\n\r\n") (strBytes "PUT") [] []
    rfl rfl rfl rfl

/-- Claim C6 (code at the failing input): a header line with no colon makes
`read_headers` hit `parts.next().unwrap()` on `None` — a panic, not a
recoverable `MalformedHeader` parse error; the whole connection handler dies
of the same panic. -/
theorem C6_no_colon_panics :
    readHeaders (strBytes "NoColonHere\r\n\r\n") =
      .error (.panicked "Option::unwrap on None") ∧
    handleConnectionInner none [] (strBytes "GET / HTTP/1.1\r\nNoColonHere\r\n\r\n") =
      .error (.panicked "Option::unwrap on None") :=
  ⟨rfl, rfl⟩

/-- Claim C7 (code at the failing input): querying the declared length of a
`FileContent` whose metadata lookup fails (file removed after the existence
check) is `fs::metadata(..).expect("File doesn't exist?")` — a panic, not a
NotFound/IOError propagated as a request-handling error; serializing a
response that carries such content dies of the same panic. -/
theorem C7_metadata_panics :
    HttpContent.contentLength (.file (strBytes "gone.txt")) [] =
      .error (.panicked "File doesn't exist?") ∧
    sendResponse [] ((HttpResponse.new .ok).withContent (.file (strBytes "gone.txt"))) =
      .error (.panicked "File doesn't exist?") :=
  ⟨rfl, rfl⟩

/-- Claim C8 (counterexample): `POST /files/f` with `Content-Length: abc`
(present but unparsable) is not answered with 400 — the `?` on
`parse::<usize>` propagates the error out of the handler and the connection
is dropped with no response written. -/
theorem C8_badlength_counterexample :
    filesPost (some (strBytes "d")) [] [(clKey, strBytes "abc")] (strBytes "/files/f") [] =
      .error HErr.intParseErr ∧
    handleConnectionInner (some (strBytes "d")) []
        (strBytes "POST /files/f HTTP/1.1\r\nContent-Length: abc\r\n\r\n") =
      .error HErr.intParseErr :=
  ⟨rfl, rfl⟩

/-- Claim C8 (amended): on `POST /files/<name>`, a missing base directory is
answered 500 (checked before the header), a missing `Content-Length` header
is answered 400, but a present-yet-unparsable `Content-Length` is NOT
answered 400: the parse error propagates, the handler produces no response
and the connection is closed (no crash of the process; the error is logged). -/
theorem C8_upload_errors_amended (fs : Fs) (hdrs : HeaderMap)
    (path stream dir v : Bytes) :
    filesPost none fs hdrs path stream =
      .ok (HttpResponse.new .internalServerError, fs) ∧
    (hmGet hdrs clKey = none →
      filesPost (some dir) fs hdrs path stream = .ok (HttpResponse.new .badRequest, fs)) ∧
    (hmGet hdrs clKey = some v → parseUsize v = none →
      filesPost (some dir) fs hdrs path stream = .error HErr.intParseErr) := by
  refine ⟨rfl, ?_, ?_⟩
  · intro h
    simp only [filesPost, h]
  · intro h hp
    simp only [filesPost, h, hp]

/-- Witness for C8 (amended): the three outcomes at concrete inputs. -/
theorem C8_upload_errors_amended_witness :
    filesPost none [] [] (strBytes "/files/f") [] =
      .ok (HttpResponse.new .internalServerError, []) ∧
    filesPost (some (strBytes "d")) [] [] (strBytes "/files/f") [] =
      .ok (HttpResponse.new .badRequest, []) ∧
    filesPost (some (strBytes "d")) [] [(clKey, strBytes "abc")] (strBytes "/files/f") [] =
      .error HErr.intParseErr :=
  ⟨(C8_upload_errors_amended [] [] (strBytes "/files/f") [] (strBytes "d") (strBytes "abc")).1,
   (C8_upload_errors_amended [] [] (strBytes "/files/f") [] (strBytes "d")
      (strBytes "abc")).2.1 rfl,
   (C8_upload_errors_amended [] [(clKey, strBytes "abc")] (strBytes "/files/f") []
      (strBytes "d") (strBytes "abc")).2.2 rfl rfl⟩

/-- Claim C9: each prefix handler slices the path at the prefix's byte length
only on paths the router has confirmed to start with that literal prefix, so
the slice is in bounds and the remainder is well-defined: prefix ++ remainder
reassembles the path exactly, and the dispatch reaches the corresponding
handler (the slice itself, `List.drop`, is total and never fails). -/
theorem C9_slice_in_bounds (config : Option Bytes) (fs : Fs) (hdrs : HeaderMap)
    (stream p1 p2 p3 : Bytes)
    (h1 : (strBytes "/echo/").isPrefixOf p1 = true)
    (h2 : (strBytes "/files/").isPrefixOf p2 = true)
    (h3 : (strBytes "/files/").isPrefixOf p3 = true) :
    (processRequest config fs .get p1 hdrs stream = .ok (echo p1, fs) ∧
      strBytes "/echo/" ++ p1.drop (strBytes "/echo/").length = p1) ∧
    (processRequest config fs .get p2 hdrs stream = .ok (files config fs p2, fs) ∧
      strBytes "/files/" ++ p2.drop (strBytes "/files/").length = p2) ∧
    (processRequest config fs .post p3 hdrs stream = filesPost config fs hdrs p3 stream ∧
      strBytes "/files/" ++ p3.drop (strBytes "/files/").length = p3) :=
  ⟨⟨processRequest_get_echo _ _ _ _ h1, append_drop_of_isPrefixOf h1⟩,
   ⟨processRequest_get_files _ _ _ _ h2, append_drop_of_isPrefixOf h2⟩,
   ⟨processRequest_post_files _ _ _ _ h3, append_drop_of_isPrefixOf h3⟩⟩

/-- Witness for C9 at the paths `/echo/a` and `/files/b`. -/
theorem C9_slice_in_bounds_witness :
    (processRequest none [] .get (strBytes "/echo/a") [] [] =
        .ok (echo (strBytes "/echo/a"), []) ∧
      strBytes "/echo/" ++ (strBytes "/echo/a").drop (strBytes "/echo/").length =
        strBytes "/echo/a") ∧
    (processRequest none [] .get (strBytes "/files/b") [] [] =
        .ok (files none [] (strBytes "/files/b"), []) ∧
      strBytes "/files/" ++ (strBytes "/files/b").drop (strBytes "/files/").length =
        strBytes "/files/b") ∧
    (processRequest none [] .post (strBytes "/files/b") [] [] =
        filesPost none [] [] (strBytes "/files/b") [] ∧
      strBytes "/files/" ++ (strBytes "/files/b").drop (strBytes "/files/").length =
        strBytes "/files/b") :=
  C9_slice_in_bounds none [] [] [] (strBytes "/echo/a") (strBytes "/files/b")
    (strBytes "/files/b") (by decide) (by decide) (by decide)

/-- Claim C10: a `PlainTextContent` built from s declares `content_length`
equal to the byte length of s, its stream-open always succeeds, and the
opened stream yields exactly those bytes, so for text content the declared
length and the streamed body always agree. -/
theorem C10_plaintext_agreement (s : Bytes) (fs : Fs) :
    HttpContent.contentLength (.plainText s) fs = .ok s.length ∧
    HttpContent.contentStream (.plainText s) fs = .ok s ∧
    (∀ b, HttpContent.contentStream (.plainText s) fs = .ok b →
      HttpContent.contentLength (.plainText s) fs = .ok b.length) :=
  ⟨rfl, rfl, fun b hb => by cases hb; rfl⟩
